import Mathlib

/-!
Shallow embedding of the voice-chat-frontend client core, developed from the
TypeScript source: the WAV container synthesis (`src/utils/audio.ts` and the
copy inside `useAudioPlayer.ts`), the chunk accumulator and turn handler of
`hooks/useServerEvents.ts`, the session flags of the App component and
`useAudioPlayer`, the reconnect backoff of `hooks/useWebSocket.ts`, and the
capture DSP helpers `downsampleBuffer` / `floatTo16BitPCM`.
Buffers of bytes are `List Nat` (each entry one byte), `ArrayBuffer`/`DataView`
cells are modelled as a size plus an index-to-byte function, audio samples are
exact rationals, and machine truncation is written out explicitly (`% 256`,
`% 2^32`, truncation toward zero for `Int16Array` stores).
-/

namespace VoiceChat

/-! ## Byte buffers and the WAV container header

`addWavHeader` (src/utils/audio.ts, identically duplicated in
`useAudioPlayer.ts`) allocates a zeroed `ArrayBuffer(44 + dataSize)`, writes
the RIFF header fields through a `DataView` (little-endian), and copies the
PCM bytes at offset 44.  An `ArrayBuffer` is modelled as its size together
with the byte stored at each index; fresh buffers are zero-filled, exactly as
in JavaScript. -/

structure ByteBuffer where
  size : Nat
  byteAt : Nat → Nat

/-- `DataView.setUint8(off, v)`: stores `v` modulo 2^8 at `off`. -/
def setUint8 (b : ByteBuffer) (off v : Nat) : ByteBuffer :=
  { b with byteAt := fun i => if i = off then v % 256 else b.byteAt i }

/-- `DataView.setUint16(off, v, true)`: little-endian 16-bit store. -/
def setUint16 (b : ByteBuffer) (off v : Nat) : ByteBuffer :=
  { b with
    byteAt := fun i =>
      if i = off then v % 256
      else if i = off + 1 then v / 256 % 256
      else b.byteAt i }

/-- `DataView.setUint32(off, v, true)`: little-endian 32-bit store
(the value is taken modulo 2^32, byte by byte). -/
def setUint32 (b : ByteBuffer) (off v : Nat) : ByteBuffer :=
  { b with
    byteAt := fun i =>
      if i = off then v % 256
      else if i = off + 1 then v / 256 % 256
      else if i = off + 2 then v / 65536 % 256
      else if i = off + 3 then v / 16777216 % 256
      else b.byteAt i }

/-- The `writeString` helper of `addWavHeader`: one `setUint8` per character,
at consecutive offsets.  Callers pass the character codes. -/
def writeBytes (b : ByteBuffer) (off : Nat) : List Nat → ByteBuffer
  | [] => b
  | v :: vs => writeBytes (setUint8 b off v) (off + 1) vs

/-- `addWavHeader(pcmData, sampleRate, numChannels, bytesPerSample)` from
src/utils/audio.ts.  The four string writes are given by their character
codes: `"RIFF"` = [82,73,70,70], `"WAVE"` = [87,65,86,69],
`"fmt "` = [102,109,116,32], `"data"` = [100,97,116,97]. -/
def addWavHeader (pcm : List Nat) (sampleRate numChannels bytesPerSample : Nat) :
    ByteBuffer :=
  let dataSize := pcm.length
  let b : ByteBuffer := { size := 44 + dataSize, byteAt := fun _ => 0 }
  let b := writeBytes b 0 [82, 73, 70, 70]
  let b := setUint32 b 4 (36 + dataSize)
  let b := writeBytes b 8 [87, 65, 86, 69]
  let b := writeBytes b 12 [102, 109, 116, 32]
  let b := setUint32 b 16 16
  let b := setUint16 b 20 1
  let b := setUint16 b 22 numChannels
  let b := setUint32 b 24 sampleRate
  let b := setUint32 b 28 (sampleRate * numChannels * bytesPerSample)
  let b := setUint16 b 32 (numChannels * bytesPerSample)
  let b := setUint16 b 34 (bytesPerSample * 8)
  let b := writeBytes b 36 [100, 97, 116, 97]
  let b := setUint32 b 40 dataSize
  -- new Uint8Array(buffer, 44).set(new Uint8Array(pcmData))
  { b with
    byteAt := fun i =>
      if 44 ≤ i ∧ i < 44 + dataSize then pcm.getD (i - 44) 0 else b.byteAt i }

/-- Read back a little-endian u16 (how a consumer decodes the header field). -/
def readU16 (b : ByteBuffer) (off : Nat) : Nat :=
  b.byteAt off + 256 * b.byteAt (off + 1)

/-- Read back a little-endian u32. -/
def readU32 (b : ByteBuffer) (off : Nat) : Nat :=
  b.byteAt off + 256 * b.byteAt (off + 1) + 65536 * b.byteAt (off + 2)
    + 16777216 * b.byteAt (off + 3)

/-! ## Chunk concatenation (`useServerEvents.ts`, `AIResponseEnd` handler)

The handler sums the chunk lengths, allocates a zeroed buffer of that total
size, and copies each chunk at the running offset with `Uint8Array.set`. -/

/-- `Uint8Array.set(chunk, off)` on a list buffer: splice `chunk` over the
bytes `[off, off + chunk.length)`. -/
def writeChunkAt (buf : List Nat) (off : Nat) (chunk : List Nat) : List Nat :=
  buf.take off ++ chunk ++ buf.drop (off + chunk.length)

/-- The copy loop of the `AIResponseEnd` handler: `for (const c of chunks)
{ v.set(new Uint8Array(c), offset); offset += c.byteLength }`. -/
def concatLoop : List (List Nat) → List Nat → Nat → List Nat
  | [], buf, _ => buf
  | c :: cs, buf, off => concatLoop cs (writeChunkAt buf off c) (off + c.length)

/-- `const total = chunks.reduce((sum, b) => sum + b.byteLength, 0)`. -/
def sumLens (chunks : List (List Nat)) : Nat := (chunks.map List.length).sum

/-- The playback buffer built by the `AIResponseEnd` handler:
`new ArrayBuffer(total)` (zero-filled) then the copy loop from offset 0. -/
def buildPlaybackBuffer (chunks : List (List Nat)) : List Nat :=
  concatLoop chunks (List.replicate (sumLens chunks) 0) 0

/-! ## The turn reconciler (`hooks/useServerEvents.ts`)

`handleEvent` and `handleMessage` mutate React state and the `currentChunks`
ref.  The embedding gathers every mutated cell into one record and turns each
handler arm into a state transition.  `stopPlayback()` is modelled as setting
the playing flag to false and counting the call; `playAudio(buf)` calls are
recorded in `playbackCalls` (the playback pipeline itself is in
`useAudioPlayer`). -/

structure Message where
  id : String
  sender : String
  text : String
  timestamp : Nat
deriving DecidableEq

structure EventsState where
  isAISpeaking : Bool
  isAIReady : Bool
  statusMessage : String
  messages : List Message
  currentUtterance : String
  currentChunks : List (List Nat)
  lastRawAudioBuffer : Option (List Nat)
  playbackCalls : List (List Nat)
  stopPlaybackCalls : Nat
deriving DecidableEq

/-- JavaScript `String.prototype.trim()`: drop whitespace from both ends
(written structurally over the character list so it evaluates on concrete
strings). -/
def jsTrim (s : String) : String :=
  ⟨((s.data.dropWhile Char.isWhitespace).reverse.dropWhile
      Char.isWhitespace).reverse⟩

/-- `const text = evt.finalText?.trim() || '[Audio only]'` — the persisted AI
message text of `useServerEvents.ts`.  `finalText?.trim()` is `undefined` when
`finalText` is absent, and `||` replaces both `undefined` and the empty string
by the placeholder. -/
def aiMessageText (finalText : Option String) : String :=
  match finalText with
  | some t => if jsTrim t = "" then "[Audio only]" else jsTrim t
  | none => "[Audio only]"

inductive ServerEvent where
  | aiConnected
  | aiResponseStart
  | aiResponseEnd (finalText : Option String)

/-- The `switch` of `handleEvent` in `useServerEvents.ts`.  `now` stands for
`Date.now()` at the `AIResponseEnd` arm. -/
def handleEvent (now : Nat) (e : ServerEvent) (s : EventsState) : EventsState :=
  match e with
  | .aiConnected =>
      { s with isAIReady := true, statusMessage := "AI Ready" }
  | .aiResponseStart =>
      let s1 := { s with
        currentUtterance := ""
        statusMessage := "AI Thinking..."
        currentChunks := []
        lastRawAudioBuffer := none }
      if s.isAISpeaking then
        { s1 with isAISpeaking := false,
                  stopPlaybackCalls := s1.stopPlaybackCalls + 1 }
      else s1
  | .aiResponseEnd ft =>
      let text := aiMessageText ft
      let s1 := { s with
        messages := s.messages ++
          [({ id := "ai-" ++ toString now, sender := "ai", text := text,
              timestamp := now } : Message)]
        currentUtterance := "" }
      let s2 :=
        if 0 < s1.currentChunks.length then
          let buf := buildPlaybackBuffer s1.currentChunks
          { s1 with lastRawAudioBuffer := some buf,
                    playbackCalls := s1.playbackCalls ++ [buf] }
        else
          { s1 with
            statusMessage := if s1.isAIReady then "AI Ready" else "Connecting..."
            lastRawAudioBuffer := none }
      { s2 with currentChunks := [] }

/-- The binary arm of `handleMessage`: `currentChunks.current.push(evt.data)`. -/
def handleBinary (data : List Nat) (s : EventsState) : EventsState :=
  { s with currentChunks := s.currentChunks ++ [data] }

/-- The `textDelta` arm of `handleMessage`:
`setCurrentUtterance((u) => u + msg.text)`. -/
def handleTextDelta (t : String) (s : EventsState) : EventsState :=
  { s with currentUtterance := s.currentUtterance ++ t }

/-- The AI-text selection of `handleServerEvent`'s `AIResponseEnd` arm in the
App component (the transcript-based variant): `finalText || ''`, falling back
to the streamed `currentUtterance`, then to `'[Audio Response Only]'`. -/
def transcriptAiText (finalText : Option String) (currentUtterance : String) :
    String :=
  let finalAiText := finalText.getD ""
  if finalAiText ≠ "" then finalAiText
  else if currentUtterance ≠ "" then currentUtterance
  else "[Audio Response Only]"

/-! ## Session flags (App `handleStartRecording`, `useAudioPlayer.playAudio`)

The recording flag lives in `useAudioRecorder` (`startRecorder` sets it true),
the playing flag in `useAudioPlayer`; `stopPlayback()` clears the playing
flag. -/

structure SessionFlags where
  isRecording : Bool
  isAISpeaking : Bool
deriving DecidableEq

/-- App `handleStartRecording`: gated on `isConnected && isAIReady` (and a
running audio context, assumed available here); force-stops playback when
`isAISpeaking`, then `startRecorder()` sets the recording flag. -/
def handleStartRecording (isConnected isAIReady : Bool) (s : SessionFlags) :
    SessionFlags :=
  if !isConnected || !isAIReady then s
  else
    let s1 := if s.isAISpeaking then { s with isAISpeaking := false } else s
    { s1 with isRecording := true }

/-- Entry of `useAudioPlayer.playAudio`: returns early when already playing or
when the buffer is empty, otherwise sets the playing flag; the recording flag
is not touched anywhere in `playAudio`. -/
def playAudioFlags (buf : List Nat) (s : SessionFlags) : SessionFlags :=
  if s.isAISpeaking then s
  else if buf.length = 0 then s
  else { s with isAISpeaking := true }

/-! ## Reconnect backoff (`hooks/useWebSocket.ts`)

The hook keeps `retryCount` in a ref with `maxRetries = 5` and
`baseDelayMs = 1000`.  `socket.onclose` schedules, for an unclean close code
with `retryCount < maxRetries`, a timer of `baseDelayMs * 2 ** retryCount`
milliseconds whose callback increments `retryCount` and re-runs
`doConnect(false)`.  In the scenarios the claims describe (consecutive unclean
closures with nothing in between) each scheduled timer fires before the next
closure, so the increment is folded into the close step.  `socket.onopen` and
`doConnect(manual := true)` reset the counter to 0; `disconnect` sets
`retryCount = maxRetries` before closing. -/

def maxRetries : Nat := 5

def baseDelayMs : Nat := 1000

/-- `evt.code === 1000 || evt.code === 1001 || evt.code === 1005`. -/
def isCleanClose (code : Nat) : Bool :=
  code == 1000 || code == 1001 || code == 1005

inductive WsEvent where
  | closeEvt (code : Nat)
  | openEvt
  | manualConnect
  | disconnectCall

/-- One transport event: the new `retryCount` and the delay of the reconnect
timer this event schedules, if any. -/
def wsStep (rc : Nat) : WsEvent → Nat × Option Nat
  | .closeEvt code =>
      if isCleanClose code = false ∧ rc < maxRetries then
        (rc + 1, some (baseDelayMs * 2 ^ rc))
      else (rc, none)
  | .openEvt => (0, none)
  | .manualConnect => (0, none)
  | .disconnectCall => (maxRetries, none)

/-- Run a sequence of transport events, collecting every scheduled reconnect
delay in order. -/
def wsRun (rc : Nat) : List WsEvent → Nat × List Nat
  | [] => (rc, [])
  | e :: es =>
      let p := wsStep rc e
      let q := wsRun p.1 es
      (q.1, p.2.toList ++ q.2)

/-! ## Capture DSP (`useAudioRecorder.ts`: `downsampleBuffer`,
`floatTo16BitPCM`)

Samples are exact rationals.  `Math.round` rounds half toward +∞, i.e.
`⌊x + 1/2⌋`.  The `Int16Array` store truncates toward zero; the quantizer only
ever stores values in `[-32768, 32767]`, so no 16-bit wrap occurs. -/

/-- JavaScript `Math.round`: `⌊x + 1/2⌋`. -/
def jsRound (q : ℚ) : ℤ := ⌊q + 1 / 2⌋

/-- The `while (offsetResult < result.length)` loop of `downsampleBuffer`,
with `fuel` the number of output samples still to produce, `k` the current
`offsetResult` and `off` the carried `offsetBuffer`.  Each step averages the
input samples `buffer[i]` for `offsetBuffer ≤ i < nextOffsetBuffer` with
`i < buffer.length`, and writes `0` when that range is empty (`count > 0`
guard of the source). -/
def dsLoop (buf : List ℚ) (ratio : ℚ) : Nat → Nat → Nat → List ℚ
  | 0, _, _ => []
  | fuel + 1, k, off =>
      let nextOff := (jsRound ((k + 1 : ℚ) * ratio)).toNat
      let samples := (buf.drop off).take (min nextOff buf.length - off)
      let count := samples.length
      (if 0 < count then samples.sum / count else 0)
        :: dsLoop buf ratio fuel (k + 1) nextOff

/-- `downsampleBuffer(buffer, inputSampleRate, outputSampleRate)`: identity
when the rates are equal, otherwise `newLength = Math.round(length / ratio)`
output samples by block averaging. -/
def downsampleBuffer (buf : List ℚ) (inputSampleRate outputSampleRate : ℚ) :
    List ℚ :=
  if inputSampleRate = outputSampleRate then buf
  else
    let sampleRateRatio := inputSampleRate / outputSampleRate
    let newLength := (jsRound ((buf.length : ℚ) / sampleRateRatio)).toNat
    dsLoop buf sampleRateRatio newLength 0 0

/-- Truncation toward zero of a rational, the conversion applied by an
`Int16Array` store (for values within 16-bit range). -/
def truncToInt (q : ℚ) : ℤ := q.num / (q.den : ℤ)

/-- One sample of `floatTo16BitPCM`:
`const s = Math.max(-1, Math.min(1, input[i])); output[i] = s < 0 ? s * 0x8000
: s * 0x7FFF`. -/
def quantizeSample (x : ℚ) : ℤ :=
  let s := max (-1 : ℚ) (min 1 x)
  if s < 0 then truncToInt (s * 32768) else truncToInt (s * 32767)

/-- `floatTo16BitPCM(input)`: the quantizer applied to every sample. -/
def floatTo16BitPCM (input : List ℚ) : List ℤ :=
  input.map quantizeSample

/-- A concrete reconciler state (fresh session with the AI ready), used to
evaluate the handlers on concrete runs. -/
def initState : EventsState :=
  { isAISpeaking := false
    isAIReady := true
    statusMessage := "AI Ready"
    messages := []
    currentUtterance := ""
    currentChunks := []
    lastRawAudioBuffer := none
    playbackCalls := []
    stopPlaybackCalls := 0 }

/-- Folding the binary arm of `handleMessage` over a list of arriving
chunks. -/
def receiveChunks (arrivals : List (List Nat)) (s : EventsState) : EventsState :=
  arrivals.foldl (fun st c => handleBinary c st) s

/-! ## Helper lemmas -/

theorem concatLoop_eq_join (cs : List (List Nat)) :
    ∀ pre : List Nat,
      concatLoop cs (pre ++ List.replicate (sumLens cs) 0) pre.length =
        pre ++ cs.flatten := by
  induction cs with
  | nil => intro pre; simp [concatLoop, sumLens]
  | cons c cs ih =>
      intro pre
      have hwrite :
          writeChunkAt (pre ++ List.replicate (sumLens (c :: cs)) 0)
              pre.length c =
            (pre ++ c) ++ List.replicate (sumLens cs) 0 := by
        have hsum : sumLens (c :: cs) = c.length + sumLens cs := by
          simp [sumLens]
        simp only [writeChunkAt, hsum]
        rw [List.take_left, List.drop_append_eq_append_drop]
        simp [List.drop_replicate]
      have := ih (pre ++ c)
      simp only [concatLoop, hwrite]
      rw [show pre.length + c.length = (pre ++ c).length by simp]
      rw [this]
      simp

theorem buildPlaybackBuffer_eq_join (chunks : List (List Nat)) :
    buildPlaybackBuffer chunks = chunks.flatten := by
  have := concatLoop_eq_join chunks []
  simpa [buildPlaybackBuffer] using this

theorem receiveChunks_spec (arrivals : List (List Nat)) :
    ∀ s : EventsState,
      (receiveChunks arrivals s).currentChunks = s.currentChunks ++ arrivals ∧
      (receiveChunks arrivals s).playbackCalls = s.playbackCalls := by
  induction arrivals with
  | nil => intro s; simp [receiveChunks]
  | cons a as ih =>
      intro s
      have := ih (handleBinary a s)
      simpa [receiveChunks, handleBinary, List.append_assoc] using this

theorem handleEvent_start_resets (now : Nat) (s : EventsState) :
    (handleEvent now ServerEvent.aiResponseStart s).currentChunks = [] ∧
    (handleEvent now ServerEvent.aiResponseStart s).playbackCalls =
      s.playbackCalls ∧
    (handleEvent now ServerEvent.aiResponseStart s).isAIReady = s.isAIReady ∧
    (handleEvent now ServerEvent.aiResponseStart s).messages = s.messages := by
  by_cases h : s.isAISpeaking <;> simp [handleEvent, h]

theorem handleEvent_end_plays (now : Nat) (ft : Option String)
    (s : EventsState) (h : s.currentChunks ≠ []) :
    (handleEvent now (ServerEvent.aiResponseEnd ft) s).playbackCalls =
      s.playbackCalls ++ [buildPlaybackBuffer s.currentChunks] := by
  have hlen : 0 < s.currentChunks.length := List.length_pos.mpr h
  simp [handleEvent, hlen]

/-! ## Claims -/

/-- C1: for every sequence of N binary chunks received between
`AIResponseStart` and `AIResponseEnd` (N ≥ 0), the playback buffer built by
the `AIResponseEnd` handler equals the byte-for-byte concatenation of the
chunks in arrival order, and its length is the sum of the chunk lengths; the
handler hands exactly that buffer to `playAudio`. -/
theorem playback_buffer_concat_order :
    (∀ chunks : List (List Nat),
        buildPlaybackBuffer chunks = chunks.flatten ∧
        (buildPlaybackBuffer chunks).length = sumLens chunks) ∧
    ∀ (s : EventsState) (arrivals : List (List Nat)) (ft : Option String)
      (n1 n2 : Nat), arrivals ≠ [] →
      (handleEvent n2 (ServerEvent.aiResponseEnd ft)
          (receiveChunks arrivals
            (handleEvent n1 ServerEvent.aiResponseStart s))).playbackCalls =
        (receiveChunks arrivals
            (handleEvent n1 ServerEvent.aiResponseStart s)).playbackCalls ++
          [arrivals.flatten] := by
  constructor
  · intro chunks
    refine ⟨buildPlaybackBuffer_eq_join chunks, ?_⟩
    rw [buildPlaybackBuffer_eq_join chunks]
    simp [sumLens, List.length_flatten]
  · intro s arrivals ft n1 n2 harr
    have hstart := handleEvent_start_resets n1 s
    have hrecv :=
      receiveChunks_spec arrivals (handleEvent n1 ServerEvent.aiResponseStart s)
    have hchunks :
        (receiveChunks arrivals
            (handleEvent n1 ServerEvent.aiResponseStart s)).currentChunks =
          arrivals := by
      rw [hrecv.1, hstart.1]; simp
    have hne :
        (receiveChunks arrivals
            (handleEvent n1 ServerEvent.aiResponseStart s)).currentChunks ≠
          [] := by
      rw [hchunks]; exact harr
    rw [handleEvent_end_plays n2 ft _ hne, hchunks,
      buildPlaybackBuffer_eq_join]

/-- Witness for C1 at a concrete run: two chunks `[1,2]` and `[3]` received
between start and end give one playback call with buffer `[1,2,3]`. -/
theorem playback_buffer_concat_order_witness :
    ([[1, 2], [3]] : List (List Nat)) ≠ [] ∧
    (handleEvent 7 (ServerEvent.aiResponseEnd (some "hello"))
        (receiveChunks [[1, 2], [3]]
          (handleEvent 5 ServerEvent.aiResponseStart initState))).playbackCalls =
      (receiveChunks [[1, 2], [3]]
          (handleEvent 5 ServerEvent.aiResponseStart initState)).playbackCalls ++
        [([[1, 2], [3]] : List (List Nat)).flatten] :=
  ⟨by decide,
   playback_buffer_concat_order.2 initState [[1, 2], [3]] (some "hello") 5 7
     (by decide)⟩

/-- C2 counterexample: the claim says starting a playback session while
recording is active halts the recording, so that afterwards at most one of
{Listening, Speaking} is true.  But `playAudio` never touches the recording
flag: starting playback from a recording-active state leaves both flags
true. -/
theorem playback_start_keeps_recording_counterexample :
    (playAudioFlags [1]
        { isRecording := true, isAISpeaking := false }).isRecording = true ∧
    (playAudioFlags [1]
        { isRecording := true, isAISpeaking := false }).isAISpeaking = true := by
  decide

/-- C2 (amended): the user start-recording command gated by
`isConnected && isAIReady` force-stops playback before capture starts, so
after it Listening holds and Speaking does not; the `AIResponseStart` handler
likewise force-stops an in-flight playback; but starting a playback session
never halts the recording — `playAudio` leaves the recording flag exactly as
it was, so the at-most-one invariant is enforced only in the
recording-start direction. -/
theorem session_exclusive_on_record_start :
    (∀ s : SessionFlags,
        (handleStartRecording true true s).isRecording = true ∧
        (handleStartRecording true true s).isAISpeaking = false) ∧
    (∀ (now : Nat) (s : EventsState),
        (handleEvent now ServerEvent.aiResponseStart s).isAISpeaking = false) ∧
    (∀ (buf : List Nat) (s : SessionFlags),
        (playAudioFlags buf s).isRecording = s.isRecording) := by
  refine ⟨?_, ?_, ?_⟩
  · intro s
    by_cases h : s.isAISpeaking <;> simp [handleStartRecording, h]
  · intro now s
    by_cases h : s.isAISpeaking <;> simp [handleEvent, h]
  · intro buf s
    by_cases h : s.isAISpeaking
    · simp [playAudioFlags, h]
    · by_cases hb : buf.length = 0 <;> simp [playAudioFlags, h, hb]

/-- C7: when the input sample rate equals the output sample rate,
`downsampleBuffer` returns the input unchanged (same samples, same
length). -/
theorem resample_identity (buf : List ℚ) (r : ℚ) :
    downsampleBuffer buf r r = buf := by
  simp [downsampleBuffer]

/-- C3: six consecutive unclean closures (no intervening open or manual
connect) schedule exactly five reconnect attempts, after delays
`base, 2·base, 4·base, 8·base, 16·base` (`baseDelayMs * 2^retryCount`,
counting from 0); the sixth unclean closure schedules nothing.  A successful
open or a manual `connect()` resets the retry counter to zero. -/
theorem reconnect_backoff (code : Nat) (h : isCleanClose code = false) :
    (wsRun 0 (List.replicate 6 (WsEvent.closeEvt code))).2 =
      [baseDelayMs, 2 * baseDelayMs, 4 * baseDelayMs, 8 * baseDelayMs,
        16 * baseDelayMs] ∧
    (∀ rc, rc < maxRetries →
        (wsStep rc (WsEvent.closeEvt code)).2 =
          some (baseDelayMs * 2 ^ rc)) ∧
    (∀ rc, (wsStep rc WsEvent.openEvt).1 = 0) ∧
    (∀ rc, (wsStep rc WsEvent.manualConnect).1 = 0) := by
  refine ⟨?_, ?_, ?_, ?_⟩
  · simp [wsRun, wsStep, h, maxRetries, baseDelayMs, List.replicate]
  · intro rc hrc
    simp [wsStep, h, hrc]
  · intro rc; simp [wsStep]
  · intro rc; simp [wsStep]

/-- Witness for C3 at the concrete unclean close code 1006. -/
theorem reconnect_backoff_witness :
    isCleanClose 1006 = false ∧
    (wsRun 0 (List.replicate 6 (WsEvent.closeEvt 1006))).2 =
      [baseDelayMs, 2 * baseDelayMs, 4 * baseDelayMs, 8 * baseDelayMs,
        16 * baseDelayMs] :=
  ⟨by decide, (reconnect_backoff 1006 (by decide)).1⟩

/-- C9: `disconnect(code, reason)` sets the retry counter to `maxRetries`
before closing, so however the channel closes afterwards (any sequence of
close codes, clean or not), no reconnect attempt is ever scheduled. -/
theorem disconnect_prevents_reconnect (rc0 : Nat) (codes : List Nat) :
    (wsRun (wsStep rc0 WsEvent.disconnectCall).1
        (codes.map WsEvent.closeEvt)).2 = [] := by
  have key : ∀ (cs : List Nat) (rc : Nat), maxRetries ≤ rc →
      (wsRun rc (cs.map WsEvent.closeEvt)).2 = [] := by
    intro cs
    induction cs with
    | nil => intro rc _; simp [wsRun]
    | cons c cs ih =>
        intro rc hrc
        have hcond : ¬(isCleanClose c = false ∧ rc < maxRetries) := by
          rintro ⟨_, hlt⟩; omega
        simp only [List.map_cons, wsRun, wsStep, if_neg hcond]
        simpa using ih rc hrc
  exact key codes _ (by simp [wsStep, maxRetries])

/-- C6: the quantizer maps -1.0 to -32768, 0.0 to 0 and 1.0 to 32767; every
input outside [-1, 1] is first clamped (values above 1 quantize like 1,
values below -1 like -1, i.e. to 32767 resp. -32768); negative clamped values
are scaled by 32768 and non-negative ones by 32767; and `floatTo16BitPCM`
applies this to every sample of every buffer. -/
theorem pcm_quantizer_boundary :
    quantizeSample (-1) = -32768 ∧
    quantizeSample 0 = 0 ∧
    quantizeSample 1 = 32767 ∧
    (∀ x : ℚ, 1 < x → quantizeSample x = 32767) ∧
    (∀ x : ℚ, x < -1 → quantizeSample x = -32768) ∧
    (∀ x : ℚ, quantizeSample x = quantizeSample (max (-1) (min 1 x))) ∧
    (∀ (l : List ℚ) (i : Nat) (h : i < l.length),
        (floatTo16BitPCM l).get ⟨i, by simpa [floatTo16BitPCM] using h⟩ =
          quantizeSample (l.get ⟨i, h⟩)) := by
  refine ⟨by norm_num [quantizeSample, truncToInt],
          by norm_num [quantizeSample, truncToInt],
          by norm_num [quantizeSample, truncToInt], ?_, ?_, ?_, ?_⟩
  · intro x hx
    have hmin : min 1 x = 1 := min_eq_left hx.le
    simp [quantizeSample, hmin, truncToInt]
  · intro x hx
    have hmin : min 1 x = x :=
      min_eq_right (hx.le.trans (by norm_num : (-1 : ℚ) ≤ 1))
    have hmax : max (-1 : ℚ) x = -1 := max_eq_left hx.le
    norm_num [quantizeSample, hmin, hmax, truncToInt]
  · intro x
    have : max (-1 : ℚ) (min 1 (max (-1) (min 1 x))) = max (-1) (min 1 x) := by
      rcases le_total x (-1) with h | h
      · simp [min_eq_right (h.trans (by norm_num : (-1 : ℚ) ≤ 1)),
          max_eq_left h]
      · rcases le_total 1 x with h1 | h1
        · simp [min_eq_left h1, min_eq_left (le_refl (1 : ℚ))]
        · rw [min_eq_right h1, max_eq_right h,  min_eq_right h1,
            max_eq_right h]
    simp only [quantizeSample, this]
  · intro l i h
    simp [floatTo16BitPCM]

/-- Witness for C6: a concrete out-of-range sample on each side. -/
theorem pcm_quantizer_boundary_witness :
    quantizeSample 2 = 32767 ∧ quantizeSample (-2) = -32768 :=
  ⟨pcm_quantizer_boundary.2.2.2.1 2 (by norm_num),
   pcm_quantizer_boundary.2.2.2.2.1 (-2) (by norm_num)⟩

/-- C5 counterexample: the claim says that when `AIResponseEnd` carries no
final text but text deltas were streamed, the persisted message text equals
the streamed text.  In `useServerEvents.ts` the persisted message text is
`finalText?.trim() || '[Audio only]'` — the streamed utterance is never
consulted: after streaming the delta "hi", the turn persists "[Audio only]",
not "hi". -/
theorem message_text_ignores_stream_counterexample :
    (handleTextDelta "hi"
        (handleEvent 0 ServerEvent.aiResponseStart initState)).currentUtterance
      = "hi" ∧
    (handleEvent 7 (ServerEvent.aiResponseEnd none)
        (handleTextDelta "hi"
          (handleEvent 0 ServerEvent.aiResponseStart initState))).messages =
      [{ id := "ai-7", sender := "ai", text := "[Audio only]",
         timestamp := 7 }] ∧
    ("[Audio only]" : String) ≠ "hi" := by
  refine ⟨by decide, ?_, by decide⟩
  decide

/-- C5 (amended): on `AIResponseEnd` the persisted AI message of
`useServerEvents.ts` always has text `finalText?.trim() || '[Audio only]'`,
independent of the streamed utterance: the trimmed final text when it is
non-empty, the placeholder otherwise.  The streamed-text fallback exists only
in the App component's transcript handler, whose AI line uses the final text
if non-empty, else the accumulated streamed text, else the placeholder
"[Audio Response Only]". -/
theorem ai_message_text_selection :
    (∀ (s : EventsState) (now : Nat) (ft : Option String),
        (handleEvent now (ServerEvent.aiResponseEnd ft) s).messages =
          s.messages ++
            [{ id := "ai-" ++ toString now, sender := "ai",
               text := aiMessageText ft, timestamp := now }]) ∧
    (∀ t : String, jsTrim t ≠ "" → aiMessageText (some t) = jsTrim t) ∧
    aiMessageText none = "[Audio only]" ∧
    (∀ t : String, jsTrim t = "" → aiMessageText (some t) = "[Audio only]") ∧
    (∀ ft u : String, ft ≠ "" → transcriptAiText (some ft) u = ft) ∧
    (∀ u : String, u ≠ "" → transcriptAiText none u = u) ∧
    transcriptAiText none "" = "[Audio Response Only]" := by
  refine ⟨?_, ?_, rfl, ?_, ?_, ?_, by decide⟩
  · intro s now ft
    by_cases h : 0 < s.currentChunks.length <;> simp [handleEvent, h]
  · intro t h; simp [aiMessageText, h]
  · intro t h; simp [aiMessageText, h]
  · intro ft u h; simp [transcriptAiText, h]
  · intro u h; simp [transcriptAiText, h]

/-- Witness for C5 (amended) at concrete strings. -/
theorem ai_message_text_selection_witness :
    aiMessageText (some " x ") = jsTrim " x " ∧
    aiMessageText (some "  ") = "[Audio only]" ∧
    transcriptAiText (some "a") "u" = "a" ∧
    transcriptAiText none "u" = "u" :=
  ⟨ai_message_text_selection.2.1 " x " (by decide),
   ai_message_text_selection.2.2.2.1 "  " (by decide),
   ai_message_text_selection.2.2.2.2.1 "a" "u" (by decide),
   ai_message_text_selection.2.2.2.2.2.1 "u" (by decide)⟩

/-- C8: a turn of `AIResponseStart` immediately followed by `AIResponseEnd`
with no chunks and no `finalText` persists one AI message with the fixed
placeholder text, invokes no playback at all, clears the retained raw buffer,
and returns the status directly to "AI Ready". -/
theorem no_audio_turn (s : EventsState) (n1 n2 : Nat)
    (h : s.isAIReady = true) :
    (handleEvent n2 (ServerEvent.aiResponseEnd none)
        (handleEvent n1 ServerEvent.aiResponseStart s)).messages =
      (handleEvent n1 ServerEvent.aiResponseStart s).messages ++
        [{ id := "ai-" ++ toString n2, sender := "ai",
           text := "[Audio only]", timestamp := n2 }] ∧
    (handleEvent n2 (ServerEvent.aiResponseEnd none)
        (handleEvent n1 ServerEvent.aiResponseStart s)).playbackCalls =
      s.playbackCalls ∧
    (handleEvent n2 (ServerEvent.aiResponseEnd none)
        (handleEvent n1 ServerEvent.aiResponseStart s)).statusMessage =
      "AI Ready" ∧
    (handleEvent n2 (ServerEvent.aiResponseEnd none)
        (handleEvent n1 ServerEvent.aiResponseStart s)).lastRawAudioBuffer =
      none ∧
    (handleEvent n2 (ServerEvent.aiResponseEnd none)
        (handleEvent n1 ServerEvent.aiResponseStart s)).currentChunks = [] := by
  by_cases hs : s.isAISpeaking <;>
    simp [handleEvent, hs, h, aiMessageText]

/-- Witness for C8 from the concrete ready state. -/
theorem no_audio_turn_witness :
    initState.isAIReady = true ∧
    (handleEvent 9 (ServerEvent.aiResponseEnd none)
        (handleEvent 3 ServerEvent.aiResponseStart initState)).playbackCalls =
      initState.playbackCalls ∧
    (handleEvent 9 (ServerEvent.aiResponseEnd none)
        (handleEvent 3 ServerEvent.aiResponseStart initState)).statusMessage =
      "AI Ready" :=
  ⟨by decide, (no_audio_turn initState 3 9 (by decide)).2.1,
   (no_audio_turn initState 3 9 (by decide)).2.2.1⟩

/-- `Math.round(n) = n` on whole numbers. -/
theorem jsRound_natCast (n : Nat) : jsRound (n : ℚ) = (n : ℤ) := by
  rw [jsRound, Int.floor_eq_iff]
  constructor
  · push_cast; linarith
  · push_cast; linarith

theorem dsLoop_length (buf : List ℚ) (ratio : ℚ) :
    ∀ (fuel k off : Nat), (dsLoop buf ratio fuel k off).length = fuel := by
  intro fuel
  induction fuel with
  | zero => intro k off; rfl
  | succ n ih => intro k off; simp [dsLoop, ih]

/-- C10: `downsampleBuffer` is total for every input buffer and positive
rates: its output length is `Math.round(length / (inputSampleRate /
outputSampleRate))` (also when the rates are equal), and an output sample
whose source block maps to no input samples is exactly 0 — the `count > 0`
guard of the source (mirrored in the embedded loop) is the only place the
per-block count is used as a divisor, and it is taken only when the count is
positive. -/
theorem downsample_total (buf : List ℚ) (inR outR : ℚ)
    (h1 : 0 < inR) (h2 : 0 < outR) :
    (downsampleBuffer buf inR outR).length =
      (jsRound ((buf.length : ℚ) / (inR / outR))).toNat ∧
    (∀ (fuel k off : Nat),
        min ((jsRound ((k + 1 : ℚ) * (inR / outR))).toNat) buf.length ≤ off →
        dsLoop buf (inR / outR) (fuel + 1) k off =
          0 :: dsLoop buf (inR / outR) fuel (k + 1)
              ((jsRound ((k + 1 : ℚ) * (inR / outR))).toNat)) := by
  constructor
  · by_cases h : inR = outR
    · subst h
      have hra : inR / inR = 1 := div_self h1.ne'
      simp [downsampleBuffer, hra, jsRound_natCast]
    · simp [downsampleBuffer, h, dsLoop_length]
  · intro fuel k off hoff
    have hz :
        min ((jsRound ((k + 1 : ℚ) * (inR / outR))).toNat) buf.length - off =
          0 := Nat.sub_eq_zero_of_le hoff
    simp [dsLoop, hz]

/-- Witness for C10: upsampling a one-sample buffer from rate 1 to rate 2
produces `Math.round(1 / (1/2)) = 2` output samples, and the second block is
empty, so its sample is 0. -/
theorem downsample_total_witness :
    (0 : ℚ) < 1 ∧ (0 : ℚ) < 2 ∧
    (downsampleBuffer [5] 1 2).length =
      (jsRound ((([5] : List ℚ).length : ℚ) / (1 / 2))).toNat ∧
    dsLoop [5] ((1 : ℚ) / 2) (0 + 1) 1 1 =
      0 :: dsLoop [5] ((1 : ℚ) / 2) 0 (1 + 1)
          ((jsRound ((1 + 1 : ℚ) * (1 / 2))).toNat) ∧
    downsampleBuffer [5] 1 2 = [5, 0] := by
  refine ⟨by norm_num, by norm_num,
    (downsample_total [5] 1 2 (by norm_num) (by norm_num)).1,
    (downsample_total [5] 1 2 (by norm_num) (by norm_num)).2 0 1 1 ?_, ?_⟩
  · have h1 : jsRound ((1 + 1 : ℚ) * (1 / 2)) = 1 := by norm_num [jsRound]
    push_cast
    rw [h1]
    simp
  · norm_num [downsampleBuffer, dsLoop, jsRound]

/-- C4: for a PCM buffer of L bytes, sample rate R, 1 channel, 2 bytes per
sample (with the declared fields representable in their u32 slots),
`addWavHeader` produces a container of total length L + 44 whose little-endian
declared data length (u32 at 40) is L, declared byte rate (u32 at 28) is R·2,
declared RIFF chunk size (u32 at 4) is 36 + L, block align (u16 at 32) is 2,
bits per sample (u16 at 34) is 16, and format tag (u16 at 20) is 1. -/
theorem wav_header_fields (pcm : List Nat) (R : Nat)
    (hL : 36 + pcm.length < 4294967296) (hR : R * 2 < 4294967296) :
    (addWavHeader pcm R 1 2).size = pcm.length + 44 ∧
    readU32 (addWavHeader pcm R 1 2) 40 = pcm.length ∧
    readU32 (addWavHeader pcm R 1 2) 28 = R * 2 ∧
    readU32 (addWavHeader pcm R 1 2) 4 = 36 + pcm.length ∧
    readU16 (addWavHeader pcm R 1 2) 32 = 2 ∧
    readU16 (addWavHeader pcm R 1 2) 34 = 16 ∧
    readU16 (addWavHeader pcm R 1 2) 20 = 1 := by
  refine ⟨?_, ?_, ?_, ?_, ?_, ?_, ?_⟩ <;>
    simp [addWavHeader, writeBytes, setUint8, setUint16, setUint32, readU32,
      readU16] <;>
    omega

/-- Witness for C4: a two-byte PCM payload at 24000 Hz. -/
theorem wav_header_fields_witness :
    36 + ([7, 13] : List Nat).length < 4294967296 ∧
    24000 * 2 < 4294967296 ∧
    (addWavHeader [7, 13] 24000 1 2).size = ([7, 13] : List Nat).length + 44 ∧
    readU32 (addWavHeader [7, 13] 24000 1 2) 40 = ([7, 13] : List Nat).length ∧
    readU32 (addWavHeader [7, 13] 24000 1 2) 28 = 24000 * 2 :=
  ⟨by decide, by decide,
   (wav_header_fields [7, 13] 24000 (by decide) (by decide)).1,
   (wav_header_fields [7, 13] 24000 (by decide) (by decide)).2.1,
   (wav_header_fields [7, 13] 24000 (by decide) (by decide)).2.2.1⟩

end VoiceChat
